import Mathlib

/-!
Verification of the rocBLAS strided-batched banded-Hermitian matrix-vector
core (hbmv_strided_batched) and its companion pieces found in this source
snapshot: the strided-batch storage view (`device_strided_batch_matrix.hpp`),
the allocation-size computation, the argument-validation contract exercised by
`testing_hbmv_strided_batched.hpp`, the per-batch-element kernel, and the
exception policy of the extern entry points (`rocblas_herk_batched.cpp`).

Machine `size_t` arithmetic is modelled as natural numbers reduced mod 2^64,
signed C integers as `ℤ`, matrix and vector element types as an arbitrary
commutative star-ring `R` (instantiated at `ℤ` for real and at `GaussianInt`
for complex element types), and pointers by nullability flags together with
the pointed-to logical contents where the contents matter.
-/

namespace Rocblas

/-- Return status domain of the library (`rocblas_status`), restricted to the
values the modelled paths can produce, plus the internal `continue` outcome an
argument check uses to signal "proceed to dispatch". -/
inductive Status where
  | success
  | invalid_handle
  | invalid_value
  | invalid_size
  | invalid_pointer
  | memory_error
  | internal_error
  | continue_
  deriving DecidableEq, Repr

/-- Fill-mode flag (`rocblas_fill`): the two recognized triangles plus the
`full` sentinel that the validator must reject. -/
inductive Fill where
  | upper
  | lower
  | full
  deriving DecidableEq, Repr

/-- Pointer mode (`rocblas_pointer_mode`): where the scalar coefficients
alpha and beta reside. -/
inductive PointerMode where
  | host
  | device
  deriving DecidableEq, Repr

/-- Outcome type of the `memcheck` device-memory query, restricted to the two
values it produces. -/
inductive HipStatus where
  | hipSuccess
  | hipErrorOutOfMemory
  deriving DecidableEq, Repr

/-! ### Strided-batch view: addressing and allocation size
Translated from `device_strided_batch_matrix.hpp`. -/

/-- Base offset (in elements) of batch item `batch_index`, translated from
`device_strided_batch_matrix::operator[]`:
`stride >= 0 ? batch_index * stride : (batch_index + 1 - batch_count) * stride`. -/
def batch_offset (stride batch_count batch_index : ℤ) : ℤ :=
  if 0 ≤ stride then batch_index * stride
  else (batch_index + 1 - batch_count) * stride

/-- Membership of an element address in the half-open region of extent `e`
occupied by batch item `i` under the signed-stride addressing rule. -/
def inRegion (stride batch_count e i addr : ℤ) : Prop :=
  batch_offset stride batch_count i ≤ addr ∧
    addr < batch_offset stride batch_count i + e

instance (stride batch_count e i addr : ℤ) :
    Decidable (inRegion stride batch_count e i addr) :=
  inferInstanceAs (Decidable (And _ _))

/-- Element count of the owning allocation, translated from
`device_strided_batch_matrix::calculate_nmemb`:
`lda * n + size_t(batch_count - 1) * std::abs(stride)`, with `size_t`
arithmetic modelled mod 2^64 and the `int`-to-`size_t` cast of
`batch_count - 1` modelled as two's-complement conversion. -/
def calculate_nmemb (n lda : ℕ) (stride batch_count : ℤ) : ℕ :=
  (lda * n + ((batch_count - 1) % 2 ^ 64).toNat * stride.natAbs) % 2 ^ 64

/-- Allocation-size formula exactly as the spec states it, over mathematical
integers: `leading_dimension * cols + (batch_count - 1) * |stride|`. -/
def spec_nmemb (n lda : ℕ) (stride batch_count : ℤ) : ℤ :=
  (lda : ℤ) * (n : ℤ) + (batch_count - 1) * |stride|

/-- Data-pointer outcome of the `device_strided_batch_matrix` constructor:
`m_data` starts null and `device_vector_setup` is invoked only when
`calculate_nmemb` is positive. `alloc` stands for the pointer the underlying
allocator would return (`none` on an out-of-memory failure); the `Bool`
records whether an allocation was attempted at all. -/
def construct_data (nmemb : ℕ) (alloc : Option ℕ) : Option ℕ × Bool :=
  if 0 < nmemb then (alloc, true) else (none, false)

/-- Translated from `device_strided_batch_matrix::memcheck`, which reports
through `operator bool` (`nullptr != m_data`): `hipSuccess` when the data
pointer is non-null, `hipErrorOutOfMemory` otherwise. -/
def memcheck (m_data : Option ℕ) : HipStatus :=
  if m_data.isSome then .hipSuccess else .hipErrorOutOfMemory

/-! ### Banded Hermitian kernel
The hbmv implementation sources are not part of this snapshot (only the test
harness and a launcher declaration are), so the kernel is modelled from the
spec, sections 4.2 and 4.4. -/

section Kernel

variable {R : Type} [CommRing R] [StarRing R]

/-- Modelled from the spec: `BandedMatrixLayout` (section 4.2), whose rocBLAS
source file is missing from this snapshot. Storage offset of the in-band
logical element `(row, col)` lying in the stored triangle: for the upper
convention, diagonal `d = col - row` lives at storage row `K - d` of column
`col`'s `(K+1)`-row stripe; for the lower convention `d = row - col` lives at
storage row `d`. -/
def bandStorageIndex (uplo : Fill) (K lda row col : ℕ) : ℕ :=
  match uplo with
  | .upper => (K - (col - row)) + col * lda
  | _ => (row - col) + col * lda

/-- Modelled from the spec: membership of a coordinate in the physically
stored triangle of the Hermitian band (part of the missing
`BandedMatrixLayout` source). -/
def inStored (uplo : Fill) (row col : ℕ) : Bool :=
  match uplo with
  | .upper => row ≤ col
  | _ => col ≤ row

/-- Modelled from the spec: the "read logical element" capability of
`BandedMatrixLayout` (sections 4.2 and 9), whose rocBLAS source is missing
from this snapshot. Stored-triangle entries are read directly from the band
store; unstored-triangle entries are the conjugate of the mirrored stored
entry. -/
def hermitianEntry (uplo : Fill) (K lda : ℕ) (AB : ℕ → R) (row col : ℕ) : R :=
  if inStored uplo row col then AB (bandStorageIndex uplo K lda row col)
  else star (AB (bandStorageIndex uplo K lda col row))

/-- Modelled from the spec: `band_neighbors(row, K)` of section 4.4 — all
`col` with `|col - row| ≤ K` and `col ∈ [0, N)`, written without truncated
subtraction. -/
def band_neighbors (N K row : ℕ) : Finset ℕ :=
  (Finset.range N).filter (fun col => row ≤ col + K ∧ col ≤ row + K)

/-- Modelled from the spec: `HbmvKernel` (section 4.4), whose rocBLAS source
is missing from this snapshot. The value the kernel writes to `y[row]` for
one batch element: `alpha*acc + beta*y[row]` where `acc` sums
`a * x[col]` over the band neighbors of `row`, `a` being the logical
Hermitian band element. `x` and `y` are the logical vectors of this batch
element (the signed increments and batch strides resolve logical indices to
physical addresses and are handled by the view layer). -/
def hbmv_y (uplo : Fill) (N K lda : ℕ) (alpha : R) (AB : ℕ → R) (x : ℕ → R)
    (beta : R) (y : ℕ → R) (row : ℕ) : R :=
  alpha * (∑ col ∈ band_neighbors N K row,
    hermitianEntry uplo K lda AB row col * x col) + beta * y row

/-- The dense `N x N` Hermitian matrix built from the stored band by mirroring
and conjugating across the diagonal, as the spec's reference comparison
describes it: in-band entries are the logical Hermitian band elements,
entries outside the band are zero. -/
def denseHermitian (uplo : Fill) (K lda : ℕ) (AB : ℕ → R) (row col : ℕ) : R :=
  if row ≤ col + K ∧ col ≤ row + K then hermitianEntry uplo K lda AB row col
  else 0

/-- Row `row` of the dense Hermitian matrix-vector product `A * x`, the
reference the spec compares the banded kernel against. -/
def denseMatVec (uplo : Fill) (N K lda : ℕ) (AB : ℕ → R) (x : ℕ → R)
    (row : ℕ) : R :=
  ∑ col ∈ Finset.range N, denseHermitian uplo K lda AB row col * x col

end Kernel

/-! ### Argument validation and the whole call
The `rocblas_hbmv_strided_batched` implementation sources are not part of this
snapshot (only `testing_hbmv_strided_batched.hpp` exercises them), so the
validator and the dispatch are modelled from the spec, sections 4.3 and 4.5,
consistent with every expectation the test harness records. -/

section Call

variable {R : Type} [CommRing R] [StarRing R] [DecidableEq R]

/-- Modelled from the spec: the hbmv `ArgumentValidator` (section 4.3), whose
rocBLAS source is missing from this snapshot. Checks run in the spec's fixed
precedence: handle, fill-mode value, sizes, zero-work short-circuit, then
pointers. Pointers are modelled by nullability flags; the scalar coefficients
additionally carry the pointed-to value, which the validator may inspect only
in host pointer mode. -/
def validate (handleNull : Bool) (uplo : Fill)
    (N K lda incx incy batch_count : ℤ) (mode : PointerMode)
    (alphaNull : Bool) (alphaVal : R) (ABNull xNull betaNull : Bool)
    (betaVal : R) (yNull : Bool) : Status :=
  if handleNull then .invalid_handle
  else if uplo ≠ .upper ∧ uplo ≠ .lower then .invalid_value
  else if N < 0 ∨ K < 0 ∨ lda ≤ K ∨ incx = 0 ∨ incy = 0 ∨ batch_count < 0 then
    .invalid_size
  else if N = 0 ∨ batch_count = 0 then .success
  else
    match mode with
    | .host =>
      if alphaNull ∨ betaNull then .invalid_pointer
      else if alphaVal = 0 ∧ betaVal = 1 then .success
      else if alphaVal = 0 then
        if yNull then .invalid_pointer else .continue_
      else if ABNull ∨ xNull ∨ yNull then .invalid_pointer
      else .continue_
    | .device =>
      if alphaNull ∨ ABNull ∨ xNull ∨ betaNull ∨ yNull then .invalid_pointer
      else .continue_

/-- Modelled from the spec: the full call (`ArgumentValidator` +
`BatchDispatcher` + `HbmvKernel`, sections 4.3-4.5), whose rocBLAS source is
missing from this snapshot. Returns the status, the final logical contents of
`y` (indexed batch-first), and the number of accelerator-memory touches,
modelled as the number of `y` elements written: 0 exactly on the validator's
error and no-op paths. On the host-mode `alpha == 0` path only the scaling
`y := beta*y` happens and the `A`/`x` contents are never consulted; otherwise
dispatch applies the kernel to every batch element. -/
def hbmv_call (handleNull : Bool) (uplo : Fill)
    (N K lda incx incy batch_count : ℤ) (mode : PointerMode)
    (alphaNull : Bool) (alphaVal : R) (ABNull xNull betaNull : Bool)
    (betaVal : R) (yNull : Bool) (AB x y : ℕ → ℕ → R) :
    Status × (ℕ → ℕ → R) × ℕ :=
  match validate handleNull uplo N K lda incx incy batch_count mode
      alphaNull alphaVal ABNull xNull betaNull betaVal yNull with
  | .continue_ =>
    if mode = .host ∧ alphaVal = 0 then
      (.success,
       fun b i => if b < batch_count.toNat ∧ i < N.toNat then betaVal * y b i
         else y b i,
       N.toNat * batch_count.toNat)
    else
      (.success,
       fun b i => if b < batch_count.toNat ∧ i < N.toNat then
           hbmv_y uplo N.toNat K.toNat lda.toNat alphaVal (AB b) (x b) betaVal
             (y b) i
         else y b i,
       N.toNat * batch_count.toNat)
  | s => (s, y, 0)

/-- Repeated invocation of a call, threading the logical `y` contents through
and accumulating the touch count; `iterate_call call y0 n` is the outcome of
`n + 1` consecutive calls that start from `y0`, paired with the running touch
total. -/
def iterate_call (call : (ℕ → ℕ → R) → Status × (ℕ → ℕ → R) × ℕ)
    (y0 : ℕ → ℕ → R) : ℕ → Status × (ℕ → ℕ → R) × ℕ
  | 0 => call y0
  | n + 1 =>
    let p := iterate_call call y0 n
    let q := call p.2.1
    (q.1, q.2.1, p.2.2 + q.2.2)

end Call

/-! ### Extern entry points of herk_batched
Translated from the `IMPL` macro of `rocblas_herk_batched.cpp`. -/

/-- C++ exceptions that can reach the extern boundary: a `rocblas_status`
thrown as an exception, `std::bad_alloc`, or anything else. -/
inductive CppExn where
  | statusExn (s : Status)
  | bad_alloc
  | other
  deriving DecidableEq, Repr

/-- Modelled from the spec: `exception_to_rocblas_status` (declared in the
missing `utility.hpp`), following the spec's error taxonomy (sections 6-7):
a thrown status is surfaced as-is, an allocation failure becomes
`memory_error`, anything else becomes `internal_error`. -/
def exception_to_rocblas_status : CppExn → Status
  | .statusExn s => s
  | .bad_alloc => .memory_error
  | .other => .internal_error

/-- Translated from the `IMPL` macro of `rocblas_herk_batched.cpp`: the
extern entry point (`rocblas_cherk_batched` / `rocblas_zherk_batched`) runs
`rocblas_herk_batched_impl` inside `try`/`catch` and converts any escaping
C++ exception into a returned status. The implementation body is abstracted
as a function from the (opaquely encoded) argument tuple to either a returned
status or a thrown exception. -/
def herk_batched_entry (impl : ℕ → Except CppExn Status) (args : ℕ) : Status :=
  match impl args with
  | .ok s => s
  | .error e => exception_to_rocblas_status e

/-! ## Claim theorems -/

/-- C2: for every strided batch view, batch item `i`'s base offset is
`i * stride` when `stride ≥ 0` and `(i + 1 - batch_count) * stride` when
`stride < 0`; for `batch_count = 3` and `stride = -S` with `S > 0`, index 0's
offset is `2S` and index 2's offset is `0`; and no two batch regions overlap
when `|stride|` is at least one item's extent. -/
theorem c2_strided_batch_addressing (stride batch_count i j e addr S : ℤ) :
    (0 ≤ stride → batch_offset stride batch_count i = i * stride)
    ∧ (stride < 0 →
        batch_offset stride batch_count i = (i + 1 - batch_count) * stride)
    ∧ (0 < S → batch_offset (-S) 3 0 = 2 * S ∧ batch_offset (-S) 3 2 = 0)
    ∧ (e ≤ |stride| → i ≠ j →
        ¬(inRegion stride batch_count e i addr
          ∧ inRegion stride batch_count e j addr)) := by
  refine ⟨fun h => by rw [batch_offset, if_pos h],
    fun h => by rw [batch_offset, if_neg (not_le.mpr h)], fun hS => ?_, ?_⟩
  · constructor
    · rw [batch_offset, if_neg (by omega)]; ring
    · rw [batch_offset, if_neg (by omega)]; ring
  · intro he hij hc
    simp only [inRegion] at hc
    obtain ⟨⟨h1, h2⟩, h3, h4⟩ := hc
    have hdiff : batch_offset stride batch_count i
        - batch_offset stride batch_count j = (i - j) * stride := by
      unfold batch_offset
      split_ifs <;> ring
    have habs : |batch_offset stride batch_count i
        - batch_offset stride batch_count j| = |i - j| * |stride| := by
      rw [hdiff, abs_mul]
    have hone : (1 : ℤ) ≤ |i - j| := Int.one_le_abs (sub_ne_zero.mpr hij)
    have hml : |stride| ≤ |i - j| * |stride| :=
      le_mul_of_one_le_left (abs_nonneg _) hone
    have hlt : |batch_offset stride batch_count i
        - batch_offset stride batch_count j| < e :=
      abs_sub_lt_iff.mpr ⟨by omega, by omega⟩
    linarith

/-- Witness for C2 at `stride = ±5, ±7`, `batch_count = 3`, extent 5. -/
theorem c2_strided_batch_addressing_witness :
    batch_offset 7 3 2 = 2 * 7
    ∧ batch_offset (-5) 3 1 = (1 + 1 - 3) * (-5)
    ∧ (batch_offset (-5) 3 0 = 2 * 5 ∧ batch_offset (-5) 3 2 = 0)
    ∧ ¬(inRegion (-5) 3 5 0 7 ∧ inRegion (-5) 3 5 1 7) :=
  ⟨(c2_strided_batch_addressing 7 3 2 0 0 0 0).1 (by decide),
   (c2_strided_batch_addressing (-5) 3 1 0 0 0 0).2.1 (by decide),
   (c2_strided_batch_addressing (-5) 3 0 0 0 0 5).2.2.1 (by decide),
   (c2_strided_batch_addressing (-5) 3 0 1 5 7 0).2.2.2 (by decide) (by decide)⟩

/-- C3 counterexample: at `cols = 1`, `lda = 1`, `stride = 5`,
`batch_count = 0`, the computed element count is the 64-bit wraparound value
`2^64 - 4`, not the spec formula's mathematical value `-4`. -/
theorem c3_nmemb_counterexample :
    ¬((calculate_nmemb 1 1 5 0 : ℤ) = spec_nmemb 1 1 5 0) := by decide

/-- C3 amended: for `1 ≤ batch_count` (as every successfully validated call
has) within the `rocblas_int` range, and absent 64-bit overflow of the
result, the computed element count equals
`leading_dimension * cols + (batch_count - 1) * |stride|`; the claim's
inclusion of `batch_count = 0` fails because the `size_t` cast of
`batch_count - 1` wraps around. -/
theorem c3_nmemb_formula (n lda : ℕ) (stride batch_count : ℤ)
    (h1 : 1 ≤ batch_count) (h2 : batch_count ≤ 2 ^ 31)
    (h3 : spec_nmemb n lda stride batch_count < 2 ^ 64) :
    (calculate_nmemb n lda stride batch_count : ℤ)
      = spec_nmemb n lda stride batch_count := by
  have hmod : (batch_count - 1) % 2 ^ 64 = batch_count - 1 :=
    Int.emod_eq_of_lt (by omega) (by omega)
  have hbc : ((batch_count - 1).toNat : ℤ) = batch_count - 1 :=
    Int.toNat_of_nonneg (by omega)
  have habs : ((stride.natAbs : ℕ) : ℤ) = |stride| := Int.natCast_natAbs stride
  have hcast : ((lda * n + (batch_count - 1).toNat * stride.natAbs : ℕ) : ℤ)
      = spec_nmemb n lda stride batch_count := by
    push_cast [hbc, habs]
    unfold spec_nmemb
    ring
  have hlt : lda * n + (batch_count - 1).toNat * stride.natAbs < 2 ^ 64 := by
    have h4 := h3
    rw [← hcast] at h4
    exact_mod_cast h4
  unfold calculate_nmemb
  rw [hmod, Nat.mod_eq_of_lt hlt]
  exact hcast

/-- Witness for the amended C3 at `cols = 4`, `lda = 3`, `stride = 5`,
`batch_count = 2`. -/
theorem c3_nmemb_formula_witness :
    (calculate_nmemb 4 3 5 2 : ℤ) = spec_nmemb 4 3 5 2 :=
  c3_nmemb_formula 4 3 5 2 (by decide) (by decide) (by decide)

/-- C9: constructing a strided batch view whose computed element count is 0
performs no allocation and leaves the data pointer null with `memcheck`
reporting out-of-memory; and `memcheck` reports success exactly when the data
pointer is non-null. -/
theorem c9_zero_nmemb_fails (nmemb : ℕ) (alloc d : Option ℕ) :
    (nmemb = 0 →
      construct_data nmemb alloc = (none, false)
      ∧ memcheck (construct_data nmemb alloc).1 = .hipErrorOutOfMemory)
    ∧ (memcheck d = .hipSuccess ↔ d ≠ none) := by
  constructor
  · rintro rfl
    simp [construct_data, memcheck]
  · cases d <;> simp [memcheck]

/-- Witness for C9 at element count 0 with an available allocation. -/
theorem c9_zero_nmemb_fails_witness :
    construct_data 0 (some 4) = (none, false)
    ∧ memcheck (construct_data 0 (some 4)).1 = .hipErrorOutOfMemory :=
  (c9_zero_nmemb_fails 0 (some 4) (some 4)).1 rfl

/-- C1: for each batch element and each output index `row ∈ [0, N)`, the hbmv
kernel writes `alpha*acc + beta*y[row]` where `acc` sums `a * x[col]` over the
band neighbors of `row`, taking `a` from the stored triangle and as the
conjugate of the mirrored stored entry on the unstored triangle — and this
equals row `row` of the equivalent dense Hermitian matrix-vector product built
by mirroring and conjugating the stored band. -/
theorem c1_hbmv_matches_dense {R : Type} [CommRing R] [StarRing R]
    (uplo : Fill) (N K lda : ℕ) (alpha : R) (AB : ℕ → R) (x : ℕ → R)
    (beta : R) (y : ℕ → R) (row : ℕ) (_hrow : row < N) :
    hbmv_y uplo N K lda alpha AB x beta y row
      = alpha * denseMatVec uplo N K lda AB x row + beta * y row := by
  have hsum : (∑ col ∈ band_neighbors N K row,
        hermitianEntry uplo K lda AB row col * x col)
      = ∑ col ∈ Finset.range N,
        denseHermitian uplo K lda AB row col * x col := by
    unfold band_neighbors
    rw [Finset.sum_filter]
    refine Finset.sum_congr rfl fun col _ => ?_
    unfold denseHermitian
    by_cases h : row ≤ col + K ∧ col ≤ row + K
    · rw [if_pos h, if_pos h]
    · rw [if_neg h, if_neg h, zero_mul]
  unfold hbmv_y denseMatVec
  rw [hsum]

/-- Witness for C1 over Gaussian integers at the spec's 4x4 bandwidth-1
upper-stored example, `row = 2`. -/
theorem c1_hbmv_matches_dense_witness :
    hbmv_y .upper 4 1 2 (⟨2, 3⟩ : GaussianInt)
        (fun s => ⟨(s : ℤ), (s : ℤ) + 1⟩) (fun c => ⟨1, (c : ℤ)⟩) ⟨0, 1⟩
        (fun r => ⟨(r : ℤ), 1⟩) 2
      = (⟨2, 3⟩ : GaussianInt)
          * denseMatVec .upper 4 1 2 (fun s => ⟨(s : ℤ), (s : ℤ) + 1⟩)
            (fun c => ⟨1, (c : ℤ)⟩) 2
        + (⟨0, 1⟩ : GaussianInt) * (fun r => (⟨(r : ℤ), 1⟩ : GaussianInt)) 2 :=
  c1_hbmv_matches_dense .upper 4 1 2 (⟨2, 3⟩ : GaussianInt)
    (fun s => ⟨(s : ℤ), (s : ℤ) + 1⟩) (fun c => ⟨1, (c : ℤ)⟩) ⟨0, 1⟩
    (fun r => ⟨(r : ℤ), 1⟩) 2 (by decide)

/-- C4: validation outcomes follow a fixed precedence: a null handle yields
`invalid_handle` before anything else; an unrecognized fill mode (the `full`
sentinel) yields `invalid_value` next, even when `N` or `batch_count` is zero;
`invalid_size` can only arise once handle and fill checks have passed; and
`invalid_pointer` can only arise once size validation has passed. -/
theorem c4_validation_precedence {R : Type} [CommRing R] [StarRing R]
    [DecidableEq R] (handleNull : Bool) (uplo : Fill)
    (N K lda incx incy batch_count : ℤ) (mode : PointerMode)
    (alphaNull : Bool) (alphaVal : R) (ABNull xNull betaNull : Bool)
    (betaVal : R) (yNull : Bool) :
    (handleNull = true →
      validate handleNull uplo N K lda incx incy batch_count mode alphaNull
        alphaVal ABNull xNull betaNull betaVal yNull = .invalid_handle)
    ∧ (handleNull = false → uplo = .full →
      validate handleNull uplo N K lda incx incy batch_count mode alphaNull
        alphaVal ABNull xNull betaNull betaVal yNull = .invalid_value)
    ∧ (validate handleNull uplo N K lda incx incy batch_count mode alphaNull
        alphaVal ABNull xNull betaNull betaVal yNull = .invalid_size →
      handleNull = false ∧ (uplo = .upper ∨ uplo = .lower))
    ∧ (validate handleNull uplo N K lda incx incy batch_count mode alphaNull
        alphaVal ABNull xNull betaNull betaVal yNull = .invalid_pointer →
      ¬(N < 0 ∨ K < 0 ∨ lda ≤ K ∨ incx = 0 ∨ incy = 0 ∨ batch_count < 0)) := by
  refine ⟨?_, ?_, ?_, ?_⟩
  · intro h
    simp [validate, h]
  · intro h0 h1
    subst h1
    simp [validate, h0]
  · intro hv
    cases handleNull with
    | true => simp [validate] at hv
    | false =>
      refine ⟨rfl, ?_⟩
      cases uplo with
      | upper => exact Or.inl rfl
      | lower => exact Or.inr rfl
      | full => simp [validate] at hv
  · intro hv hsz
    cases handleNull with
    | true => simp [validate] at hv
    | false =>
      by_cases hval : uplo ≠ .upper ∧ uplo ≠ .lower
      · simp [validate, hval] at hv
      · simp [validate, hval, hsz] at hv

/-- Witness for C4: a null handle wins, and the `full` fill sentinel is
rejected with `invalid_value` even at `N = 0`. -/
theorem c4_validation_precedence_witness :
    validate true Fill.full 0 0 1 1 1 0 PointerMode.host true (0 : ℤ) true
        true true 0 true = .invalid_handle
    ∧ validate false Fill.full 0 0 1 1 1 0 PointerMode.host true (0 : ℤ) true
        true true 0 true = .invalid_value :=
  ⟨(c4_validation_precedence true Fill.full 0 0 1 1 1 0 PointerMode.host true
      (0 : ℤ) true true true 0 true).1 rfl,
   (c4_validation_precedence false Fill.full 0 0 1 1 1 0 PointerMode.host true
      (0 : ℤ) true true true 0 true).2.1 rfl rfl⟩

/-- C5: with a valid handle and fill mode, a call returns `invalid_size`
exactly when `N < 0`, `K < 0`, `lda ≤ K`, `incx = 0`, `incy = 0`, or
`batch_count < 0`; in particular `lda ≤ K` always yields `invalid_size`
regardless of the other parameters, even when every pointer is null. -/
theorem c5_invalid_size_criterion {R : Type} [CommRing R] [StarRing R]
    [DecidableEq R] (uplo : Fill) (N K lda incx incy batch_count : ℤ)
    (mode : PointerMode) (alphaNull : Bool) (alphaVal : R)
    (ABNull xNull betaNull : Bool) (betaVal : R) (yNull : Bool)
    (hf : uplo = .upper ∨ uplo = .lower) :
    (validate false uplo N K lda incx incy batch_count mode alphaNull alphaVal
        ABNull xNull betaNull betaVal yNull = .invalid_size
      ↔ (N < 0 ∨ K < 0 ∨ lda ≤ K ∨ incx = 0 ∨ incy = 0 ∨ batch_count < 0))
    ∧ (lda ≤ K →
      validate false uplo N K lda incx incy batch_count mode alphaNull alphaVal
        ABNull xNull betaNull betaVal yNull = .invalid_size) := by
  have hval : ¬(uplo ≠ .upper ∧ uplo ≠ .lower) := by
    rcases hf with h | h <;> simp [h]
  constructor
  · constructor
    · intro hv
      by_contra hsz
      simp only [validate, hval, hsz] at hv
      by_cases h0 : N = 0 ∨ batch_count = 0
      · simp [h0] at hv
      · simp only [h0] at hv
        cases mode with
        | host => split_ifs at hv
        | device => split_ifs at hv
    · intro hsz
      simp [validate, hval, hsz]
  · intro h
    simp [validate, hval, h]

/-- Witness for C5: `lda = 4 ≤ K = 5` yields `invalid_size` with every
pointer null. -/
theorem c5_invalid_size_criterion_witness :
    validate false Fill.upper 3 5 4 1 1 2 PointerMode.host true (0 : ℤ) true
      true true 0 true = .invalid_size :=
  (c5_invalid_size_criterion Fill.upper 3 5 4 1 1 2 PointerMode.host true
    (0 : ℤ) true true true 0 true (Or.inl rfl)).2 (by decide)

/-- C8: in device pointer mode with `N > 0` and `batch_count > 0` (handle,
fill, and sizes valid), the coefficient-value fast paths are unavailable and
the validator requires every pointer non-null, returning `invalid_pointer`
for any null among alpha, A, x, beta, y — regardless of the coefficient
values, including `alpha = 0`, `beta = 1`. -/
theorem c8_device_mode_requires_pointers {R : Type} [CommRing R] [StarRing R]
    [DecidableEq R] (uplo : Fill) (N K lda incx incy batch_count : ℤ)
    (alphaNull : Bool) (alphaVal : R) (ABNull xNull betaNull : Bool)
    (betaVal : R) (yNull : Bool)
    (hf : uplo = .upper ∨ uplo = .lower)
    (hsz : ¬(N < 0 ∨ K < 0 ∨ lda ≤ K ∨ incx = 0 ∨ incy = 0 ∨ batch_count < 0))
    (hpos : ¬(N = 0 ∨ batch_count = 0)) :
    (validate false uplo N K lda incx incy batch_count PointerMode.device
        alphaNull alphaVal ABNull xNull betaNull betaVal yNull
        = .invalid_pointer
      ↔ (alphaNull ∨ ABNull ∨ xNull ∨ betaNull ∨ yNull))
    ∧ ((alphaNull ∨ ABNull ∨ xNull ∨ betaNull ∨ yNull) →
      ∀ a2 b2 : R, validate false uplo N K lda incx incy batch_count
        PointerMode.device alphaNull a2 ABNull xNull betaNull b2 yNull
        = .invalid_pointer) := by
  have hval : ¬(uplo ≠ .upper ∧ uplo ≠ .lower) := by
    rcases hf with h | h <;> simp [h]
  constructor
  · by_cases h : alphaNull = true ∨ ABNull = true ∨ xNull = true
        ∨ betaNull = true ∨ yNull = true
    · simp [validate, hval, hsz, hpos, h]
    · simp [validate, hval, hsz, hpos, h]
  · intro h a2 b2
    simp [validate, hval, hsz, hpos, h]

/-- Witness for C8: a null y pointer yields `invalid_pointer` in device mode
even with `alpha = 0` and `beta = 1`. -/
theorem c8_device_mode_requires_pointers_witness :
    validate false Fill.upper 2 1 2 1 1 2 PointerMode.device false (0 : ℤ)
      false false false 1 true = .invalid_pointer :=
  ((c8_device_mode_requires_pointers Fill.upper 2 1 2 1 1 2 false (0 : ℤ)
    false false false 1 true (Or.inl rfl) (by decide) (by decide)).2
    (by simp)) 0 1

/-- C6: for every otherwise-valid parameter set with `N = 0` or
`batch_count = 0`, the call succeeds with alpha, A, x, beta, and y all null,
touches no accelerator memory, and leaves the y contents unchanged — and so
does every number of repetitions of the same call (`n + 1` consecutive
invocations for any `n`). -/
theorem c6_dry_run_idempotent {R : Type} [CommRing R] [StarRing R]
    [DecidableEq R] (uplo : Fill) (N K lda incx incy batch_count : ℤ)
    (mode : PointerMode) (alphaVal betaVal : R) (AB x y : ℕ → ℕ → R) (n : ℕ)
    (hf : uplo = .upper ∨ uplo = .lower)
    (hsz : ¬(N < 0 ∨ K < 0 ∨ lda ≤ K ∨ incx = 0 ∨ incy = 0 ∨ batch_count < 0))
    (h0 : N = 0 ∨ batch_count = 0) :
    iterate_call
      (hbmv_call false uplo N K lda incx incy batch_count mode true alphaVal
        true true true betaVal true AB x) y n = (.success, y, 0) := by
  have hval : ¬(uplo ≠ .upper ∧ uplo ≠ .lower) := by
    rcases hf with h | h <;> simp [h]
  have hv : validate false uplo N K lda incx incy batch_count mode true
      alphaVal true true true betaVal true = .success := by
    simp [validate, hval, hsz, h0]
  have hcall : ∀ z, hbmv_call false uplo N K lda incx incy batch_count mode
      true alphaVal true true true betaVal true AB x z = (.success, z, 0) := by
    intro z
    unfold hbmv_call
    rw [hv]
  induction n with
  | zero => simp [iterate_call, hcall]
  | succ m ih =>
    unfold iterate_call
    rw [ih]
    simp [hcall]

/-- Witness for C6: four consecutive all-null calls with `N = 0` all succeed
without touching memory or the y contents. -/
theorem c6_dry_run_idempotent_witness :
    iterate_call
      (hbmv_call false Fill.upper 0 1 2 1 1 2 PointerMode.device true (0 : ℤ)
        true true true 0 true (fun _ _ => 0) (fun _ _ => 0)) (fun _ _ => 3) 3
      = (.success, (fun _ _ => (3 : ℤ)), 0) :=
  c6_dry_run_idempotent Fill.upper 0 1 2 1 1 2 PointerMode.device 0 0
    (fun _ _ => 0) (fun _ _ => 0) (fun _ _ => 3) 3 (Or.inl rfl) (by decide)
    (Or.inl rfl)

/-- C7: for every valid working shape with host-resident `alpha = 0`: when
`beta = 1`, the call succeeds with A, x, and y all null and changes nothing;
for arbitrary `beta`, the call succeeds with A and x null, each in-range y
element becomes `beta * y`, out-of-range elements are untouched, and the A
and x contents are never consulted (the outcome is identical for any A, x). -/
theorem c7_alpha_zero_fast_paths {R : Type} [CommRing R] [StarRing R]
    [DecidableEq R] (uplo : Fill) (N K lda incx incy batch_count : ℤ)
    (betaVal : R) (AB x y AB2 x2 : ℕ → ℕ → R)
    (hf : uplo = .upper ∨ uplo = .lower)
    (hsz : ¬(N < 0 ∨ K < 0 ∨ lda ≤ K ∨ incx = 0 ∨ incy = 0 ∨ batch_count < 0))
    (hpos : ¬(N = 0 ∨ batch_count = 0)) :
    (betaVal = 1 →
      hbmv_call false uplo N K lda incx incy batch_count PointerMode.host
        false (0 : R) true true false betaVal true AB x y
        = (.success, y, 0))
    ∧ (hbmv_call false uplo N K lda incx incy batch_count PointerMode.host
        false (0 : R) true true false betaVal false AB x y).1 = .success
    ∧ (∀ b i, b < batch_count.toNat → i < N.toNat →
      (hbmv_call false uplo N K lda incx incy batch_count PointerMode.host
        false (0 : R) true true false betaVal false AB x y).2.1 b i
        = betaVal * y b i)
    ∧ (∀ b i, ¬(b < batch_count.toNat ∧ i < N.toNat) →
      (hbmv_call false uplo N K lda incx incy batch_count PointerMode.host
        false (0 : R) true true false betaVal false AB x y).2.1 b i = y b i)
    ∧ hbmv_call false uplo N K lda incx incy batch_count PointerMode.host
        false (0 : R) true true false betaVal false AB x y
      = hbmv_call false uplo N K lda incx incy batch_count PointerMode.host
        false (0 : R) true true false betaVal false AB2 x2 y := by
  have hval : ¬(uplo ≠ .upper ∧ uplo ≠ .lower) := by
    rcases hf with h | h <;> simp [h]
  by_cases hb1 : betaVal = 1
  · have hv : validate false uplo N K lda incx incy batch_count
        PointerMode.host false (0 : R) true true false betaVal false
        = .success := by
      simp [validate, hval, hsz, hpos, hb1]
    have hvy : validate false uplo N K lda incx incy batch_count
        PointerMode.host false (0 : R) true true false betaVal true
        = .success := by
      simp [validate, hval, hsz, hpos, hb1]
    have hc : ∀ AB3 x3 : ℕ → ℕ → R,
        hbmv_call false uplo N K lda incx incy batch_count PointerMode.host
          false (0 : R) true true false betaVal false AB3 x3 y
        = (.success, y, 0) := by
      intro AB3 x3
      unfold hbmv_call
      rw [hv]
    refine ⟨fun _ => ?_, ?_, ?_, ?_, ?_⟩
    · unfold hbmv_call
      rw [hvy]
    · rw [hc AB x]
    · intro b i _ _
      rw [hc AB x, hb1, one_mul]
    · intro b i _
      rw [hc AB x]
    · rw [hc AB x, hc AB2 x2]
  · have hv : validate false uplo N K lda incx incy batch_count
        PointerMode.host false (0 : R) true true false betaVal false
        = .continue_ := by
      simp [validate, hval, hsz, hpos, hb1]
    have hc : ∀ AB3 x3 : ℕ → ℕ → R,
        hbmv_call false uplo N K lda incx incy batch_count PointerMode.host
          false (0 : R) true true false betaVal false AB3 x3 y
        = (.success,
           fun b i => if b < batch_count.toNat ∧ i < N.toNat
             then betaVal * y b i else y b i,
           N.toNat * batch_count.toNat) := by
      intro AB3 x3
      unfold hbmv_call
      rw [hv]
      simp
    refine ⟨fun hb => absurd hb hb1, ?_, ?_, ?_, ?_⟩
    · rw [hc AB x]
    · intro b i hb hi
      rw [hc AB x]
      simp [hb, hi]
    · intro b i hout
      rw [hc AB x]
      simp only
      rw [if_neg hout]
    · rw [hc AB x, hc AB2 x2]

/-- Witness for C7 at `N = 2`, `batch_count = 2`, `alpha = 0`, `beta = 1`,
with A, x, y all null: full no-op. -/
theorem c7_alpha_zero_fast_paths_witness :
    hbmv_call false Fill.upper 2 1 2 1 1 2 PointerMode.host false (0 : ℤ)
      true true false 1 true (fun _ _ => 0) (fun _ _ => 0) (fun _ _ => 5)
      = (.success, (fun _ _ => (5 : ℤ)), 0) :=
  (c7_alpha_zero_fast_paths Fill.upper 2 1 2 1 1 2 1 (fun _ _ => 0)
    (fun _ _ => 0) (fun _ _ => 5) (fun _ _ => 7) (fun _ _ => 7) (Or.inl rfl)
    (by decide) (by decide)).1 rfl

/-- C10: the extern herk_batched entry points never propagate a C++ exception
to the caller: when the implementation throws, the entry point returns the
converted status; when it returns normally, the entry point returns that
status unchanged. -/
theorem c10_no_exception_escape (impl : ℕ → Except CppExn Status) (args : ℕ) :
    (∀ e, impl args = .error e →
      herk_batched_entry impl args = exception_to_rocblas_status e)
    ∧ (∀ s, impl args = .ok s → herk_batched_entry impl args = s) := by
  constructor
  · intro e he
    simp [herk_batched_entry, he]
  · intro s hs
    simp [herk_batched_entry, hs]

/-- Witness for C10: an implementation that throws `std::bad_alloc` makes the
entry point return `memory_error` rather than propagate. -/
theorem c10_no_exception_escape_witness :
    herk_batched_entry (fun _ => .error .bad_alloc) 0 = .memory_error :=
  (c10_no_exception_escape (fun _ => .error .bad_alloc) 0).1 .bad_alloc rfl

end Rocblas
